import Mathlib

/-!
Formal model of the bind-mesh reconstruction script
(src/reconstruct_bind_mesh.py).

The script recovers the bind-pose shape of a skinned mesh: for every
vertex it accumulates a weighted blend of per-joint deformation matrices
(deformed joint world matrix composed with the inverse of the bind joint
world matrix), inverts the blend, and maps the authored (deformed)
vertex position back into bind space.  It then duplicates the input
mesh, writes the reconstructed points onto the duplicate, binds the
duplicate to the joints and copies the original skin weights by
influence index.

Matrices are Maya `MMatrix` values: 4x4, row-major, points act as row
vectors on the left (`point * matrix`).  We model matrix entries with
rationals; floating-point rounding is out of scope, so equalities are
exact (the spec only asks for equality within floating tolerance).
-/

/-- A Maya `MMatrix`: a 4x4 matrix of scalars. -/
abbrev Mat4 := Matrix (Fin 4) (Fin 4) ℚ

/-- A Maya `MPoint`: a homogeneous point (x, y, z, w), acting as a row
vector under `point * matrix`.  Mesh points are returned by
`MFnMesh.getPoints` with `w = 1`. -/
abbrev MPoint := Fin 4 → ℚ

/-- Model of Maya `MMatrix.inverse()`.  For a nonsingular matrix this is
the true inverse (adjugate over determinant).  Maya documents the
singular case as undefined and raises no exception there; we model that
undefined result as the zero matrix. -/
def mmatInverse (A : Mat4) : Mat4 :=
  if A.det = 0 then 0 else A.det⁻¹ • A.adjugate

lemma mmatInverse_eq_inv {A : Mat4} (h : A.det ≠ 0) : mmatInverse A = A⁻¹ := by
  rw [mmatInverse, if_neg h, Matrix.inv_def, Ring.inverse_eq_inv]

lemma mmatInverse_one : mmatInverse (1 : Mat4) = 1 := by
  rw [mmatInverse, if_neg (by simp)]
  rw [Matrix.det_one, inv_one, Matrix.adjugate_one, one_smul]

lemma mmatInverse_zero : mmatInverse (0 : Mat4) = 0 := by
  rw [mmatInverse, if_pos (Matrix.det_zero ⟨0⟩)]

lemma mmatInverse_mul_self {A : Mat4} (h : A.det ≠ 0) : mmatInverse A * A = 1 := by
  rw [mmatInverse_eq_inv h]
  exact Matrix.nonsing_inv_mul A (isUnit_iff_ne_zero.mpr h)

/-- Line 177 of the source: `skin_matrix = bind_joint_matrix.inverse() *
current_joint_matrix`, the deformation matrix of one joint, where the
poses map joint names to cached world matrices. -/
def skin_matrix (bindPose deformedPose : String → Mat4) (jointName : String) : Mat4 :=
  mmatInverse (bindPose jointName) * deformedPose jointName

/-- Lines 171-178 of the source: the inner `for j, weight in
enumerate(vertex_weights)` loop.  `j` is the running influence index
(`enumerate` state), `acc` the accumulator `weighted_skin_matrix`.
Python's `joints[j]` is modelled with `List.getD`; the loops only ever
index within bounds (`num_influences` equals the joint count). -/
def skinMatrixLoop (bindPose deformedPose : String → Mat4) (joints : List String) :
    ℕ → Mat4 → List ℚ → Mat4
  | _, acc, [] => acc
  | j, acc, w :: ws =>
      skinMatrixLoop bindPose deformedPose joints (j + 1)
        (if 0 < w then acc + w • skin_matrix bindPose deformedPose (joints.getD j "")
         else acc) ws

/-- Lines 171-178: `weighted_skin_matrix`, accumulated from
`om.MMatrix([0.0] * 16)` (the zero matrix) over the vertex's weight row. -/
def weightedSkinMatrix (bindPose deformedPose : String → Mat4) (joints : List String)
    (vertexWeights : List ℚ) : Mat4 :=
  skinMatrixLoop bindPose deformedPose joints 0 0 vertexWeights

/-- Line 179: `bind_vertex = cur_vertex * weighted_skin_matrix.inverse()`
(Maya point-times-matrix is row-vector times matrix). -/
def reconstructVertex (bindPose deformedPose : String → Mat4) (joints : List String)
    (curVertex : MPoint) (vertexWeights : List ℚ) : MPoint :=
  Matrix.vecMul curVertex
    (mmatInverse (weightedSkinMatrix bindPose deformedPose joints vertexWeights))

/-- Lines 165-181: the outer vertex loop.  Iteration `v` of
`for i in range(0, len(weights), num_influences)` reads
`source_points[v]` and the weight slice
`weights[v*num_influences : v*num_influences + num_influences]` and
appends one reconstructed point; the iteration count is
`ceil(len(weights) / num_influences)`. -/
def reconstructLoop (bindPose deformedPose : String → Mat4) (joints : List String)
    (sourcePoints : List MPoint) (weights : List ℚ) (numInfluences : ℕ) : List MPoint :=
  (List.range ((weights.length + numInfluences - 1) / numInfluences)).map fun v =>
    reconstructVertex bindPose deformedPose joints
      (sourcePoints.getD v (fun _ => 0))
      ((weights.drop (v * numInfluences)).take numInfluences)

/-- The blend matrix as the specification states it: the component-wise
sum, over exactly the influences with strictly positive weight, of the
weight times the joint's deformation matrix. -/
def blendMatrixSpec (bindPose deformedPose : String → Mat4) (joints : List String)
    (vertexWeights : List ℚ) : Mat4 :=
  ∑ j in (Finset.range vertexWeights.length).filter
      (fun j => 0 < vertexWeights.getD j 0),
    vertexWeights.getD j 0 • skin_matrix bindPose deformedPose (joints.getD j "")

lemma skinMatrixLoop_eq_sum (bindPose deformedPose : String → Mat4)
    (joints : List String) (l : List ℚ) : ∀ (j0 : ℕ) (acc : Mat4),
    skinMatrixLoop bindPose deformedPose joints j0 acc l =
      acc + ∑ k in (Finset.range l.length).filter (fun k => 0 < l.getD k 0),
        l.getD k 0 • skin_matrix bindPose deformedPose (joints.getD (j0 + k) "") := by
  induction l with
  | nil => intro j0 acc; simp [skinMatrixLoop]
  | cons w ws ih =>
      intro j0 acc
      rw [skinMatrixLoop, ih]
      rw [Finset.sum_filter, Finset.sum_filter]
      rw [List.length_cons, Finset.sum_range_succ']
      simp only [List.getD_cons_succ, List.getD_cons_zero]
      have hsh : ∀ k : ℕ, joints.getD (j0 + (k + 1)) "" = joints.getD (j0 + 1 + k) "" := by
        intro k
        have : j0 + (k + 1) = j0 + 1 + k := by omega
        rw [this]
      have hsum :
          (∑ k in Finset.range ws.length,
            if 0 < ws.getD k 0 then
              ws.getD k 0 • skin_matrix bindPose deformedPose (joints.getD (j0 + (k + 1)) "")
            else 0) =
          ∑ k in Finset.range ws.length,
            if 0 < ws.getD k 0 then
              ws.getD k 0 • skin_matrix bindPose deformedPose (joints.getD (j0 + 1 + k) "")
            else 0 := by
        refine Finset.sum_congr rfl fun k _ => ?_
        rw [hsh k]
      rw [hsum]
      simp only [Nat.add_zero]
      by_cases hw : 0 < w
      · rw [if_pos hw, if_pos hw]
        abel
      · rw [if_neg hw, if_neg hw]
        abel

lemma weightedSkinMatrix_eq_spec (bindPose deformedPose : String → Mat4)
    (joints : List String) (vertexWeights : List ℚ) :
    weightedSkinMatrix bindPose deformedPose joints vertexWeights =
      blendMatrixSpec bindPose deformedPose joints vertexWeights := by
  rw [weightedSkinMatrix, skinMatrixLoop_eq_sum, zero_add, blendMatrixSpec]
  refine Finset.sum_congr rfl fun k _ => ?_
  rw [Nat.zero_add]

/-- Claim C1: for every vertex whose weight row has at least one strictly
positive weight, the reconstructed position equals the deformed source
position multiplied by the inverse of the blend matrix M, where M is the
component-wise sum over exactly the influences with strictly positive
weight of the weight times `inverse(bindPose[joint]) * deformedPose[joint]`,
accumulated from the zero matrix; non-positive weights contribute nothing. -/
theorem C1_blend_inverse_reconstruction (bindPose deformedPose : String → Mat4)
    (joints : List String) (curVertex : MPoint) (vertexWeights : List ℚ)
    (hpos : ∃ w ∈ vertexWeights, 0 < w) :
    reconstructVertex bindPose deformedPose joints curVertex vertexWeights =
      Matrix.vecMul curVertex
        (mmatInverse (blendMatrixSpec bindPose deformedPose joints vertexWeights)) := by
  rw [reconstructVertex, weightedSkinMatrix_eq_spec]

/-- Witness for C1 at a concrete input. -/
theorem C1_blend_inverse_reconstruction_witness :
    (∃ w ∈ [(1 : ℚ)], 0 < w) ∧
    reconstructVertex (fun _ => 1) (fun _ => 1) ["jointA"] (fun _ => 1) [1] =
      Matrix.vecMul (fun _ => (1 : ℚ))
        (mmatInverse (blendMatrixSpec (fun _ => 1) (fun _ => 1) ["jointA"] [1])) :=
  ⟨⟨1, by simp⟩,
    C1_blend_inverse_reconstruction (fun _ => 1) (fun _ => 1) ["jointA"] (fun _ => 1) [1]
      ⟨1, by simp⟩⟩

lemma vecMul_matrix_smul (c : ℚ) (v : MPoint) (M : Mat4) :
    Matrix.vecMul v (c • M) = c • Matrix.vecMul v M := by
  ext j
  simp only [Matrix.vecMul, Matrix.dotProduct, Matrix.smul_apply, Pi.smul_apply,
    smul_eq_mul, Finset.mul_sum]
  refine Finset.sum_congr rfl fun i _ => by ring

lemma mmatInverse_smul_one (c : ℚ) (hc : c ≠ 0) :
    mmatInverse (c • (1 : Mat4)) = c⁻¹ • 1 := by
  have hdet : (c • (1 : Mat4)).det ≠ 0 := by
    rw [Matrix.det_smul, Matrix.det_one, mul_one]
    exact pow_ne_zero _ hc
  rw [mmatInverse_eq_inv hdet]
  refine Matrix.inv_eq_right_inv ?_
  rw [Matrix.smul_mul, Matrix.mul_smul, smul_smul, mul_inv_cancel₀ hc, one_smul, mul_one]

/-- The sum of the strictly positive entries of a weight row (the weights
that the source's `if weight > 0.0` guard admits into the blend). -/
def posWeightSum : List ℚ → ℚ
  | [] => 0
  | w :: ws => (if 0 < w then w else 0) + posWeightSum ws

lemma skinMatrixLoop_of_unit_skin (bindPose deformedPose : String → Mat4)
    (joints : List String)
    (h1 : ∀ name, skin_matrix bindPose deformedPose name = 1) (l : List ℚ) :
    ∀ (j0 : ℕ) (acc : Mat4),
      skinMatrixLoop bindPose deformedPose joints j0 acc l =
        acc + posWeightSum l • (1 : Mat4) := by
  induction l with
  | nil => intro j0 acc; simp [skinMatrixLoop, posWeightSum]
  | cons w ws ih =>
      intro j0 acc
      rw [skinMatrixLoop, ih, posWeightSum, h1, add_smul]
      by_cases hw : 0 < w
      · rw [if_pos hw, if_pos hw]
        abel
      · rw [if_neg hw, if_neg hw, zero_smul]
        abel

/-- Claim C2 (amended): if both pose snapshots assign the same world
matrix to every joint, every joint matrix is invertible, and the
strictly positive weights of the vertex sum to 1, then the reconstructed
position equals the source deformed position exactly. -/
theorem C2_roundtrip_identity (bindPose deformedPose : String → Mat4)
    (joints : List String) (curVertex : MPoint) (vertexWeights : List ℚ)
    (hsame : ∀ j, bindPose j = deformedPose j)
    (hinv : ∀ j, (bindPose j).det ≠ 0)
    (hsum : posWeightSum vertexWeights = 1) :
    reconstructVertex bindPose deformedPose joints curVertex vertexWeights = curVertex := by
  have h1 : ∀ name, skin_matrix bindPose deformedPose name = 1 := fun name => by
    rw [skin_matrix, ← hsame name, mmatInverse_mul_self (hinv name)]
  rw [reconstructVertex, weightedSkinMatrix,
    skinMatrixLoop_of_unit_skin bindPose deformedPose joints h1, zero_add, hsum,
    one_smul, mmatInverse_one, Matrix.vecMul_one]

/-- Witness for the amended C2 at a concrete input. -/
theorem C2_roundtrip_identity_witness :
    (∀ j : String, (fun _ : String => (1 : Mat4)) j = (fun _ : String => (1 : Mat4)) j) ∧
    posWeightSum [(1 : ℚ)] = 1 ∧
    reconstructVertex (fun _ => 1) (fun _ => 1) ["jointA"] (fun _ => 2) [1] =
      (fun _ => (2 : ℚ)) :=
  ⟨fun _ => rfl, by norm_num [posWeightSum],
    C2_roundtrip_identity (fun _ => 1) (fun _ => 1) ["jointA"] (fun _ => 2) [1]
      (fun _ => rfl) (fun _ => by simp) (by norm_num [posWeightSum])⟩

/-- Counterexample to C2 as stated: with identical (identity) poses on
every joint and the single strictly positive weight 2 (a legal weight
distribution by the claim: it need not sum to 1 and the blend, twice the
identity, is invertible), the reconstructed position is half the source
position, not the source position. -/
theorem C2_roundtrip_counterexample :
    (∀ j : String, (fun _ : String => (1 : Mat4)) j = (fun _ : String => (1 : Mat4)) j) ∧
    (∃ w ∈ [(2 : ℚ)], 0 < w) ∧
    reconstructVertex (fun _ => 1) (fun _ => 1) ["jointA"] ![2, 0, 0, 1] [2] ≠
      ![2, 0, 0, 1] := by
  refine ⟨fun _ => rfl, ⟨2, by simp⟩, ?_⟩
  have hw : weightedSkinMatrix (fun _ => 1) (fun _ => 1) ["jointA"] [2] =
      (2 : ℚ) • (1 : Mat4) := by
    rw [weightedSkinMatrix, skinMatrixLoop, if_pos (by norm_num : (0 : ℚ) < 2),
      skinMatrixLoop, skin_matrix]
    simp [mmatInverse_one]
  rw [reconstructVertex, hw, mmatInverse_smul_one 2 (by norm_num), vecMul_matrix_smul,
    Matrix.vecMul_one]
  intro h
  have h0 := congrFun h 0
  simp only [Pi.smul_apply, Matrix.cons_val_zero, smul_eq_mul] at h0
  norm_num at h0

/-- Claim C4: for a vertex whose weight row has exactly one non-zero
weight, equal to 1, at influence index k, the reconstructed position is
the deformed position times the inverse of that single joint's
deformation matrix `inverse(bindPose[J]) * deformedPose[J]`. -/
theorem C4_single_influence (bindPose deformedPose : String → Mat4)
    (joints : List String) (curVertex : MPoint) (vertexWeights : List ℚ) (k : ℕ)
    (hk : k < vertexWeights.length) (hone : vertexWeights.getD k 0 = 1)
    (hzero : ∀ j < vertexWeights.length, j ≠ k → vertexWeights.getD j 0 = 0) :
    reconstructVertex bindPose deformedPose joints curVertex vertexWeights =
      Matrix.vecMul curVertex
        (mmatInverse (skin_matrix bindPose deformedPose (joints.getD k ""))) := by
  rw [reconstructVertex, weightedSkinMatrix_eq_spec]
  have hset : (Finset.range vertexWeights.length).filter
      (fun j => 0 < vertexWeights.getD j 0) = {k} := by
    ext j
    simp only [Finset.mem_filter, Finset.mem_range, Finset.mem_singleton]
    constructor
    · rintro ⟨hj, hpos⟩
      by_contra hne
      rw [hzero j hj hne] at hpos
      exact lt_irrefl 0 hpos
    · rintro rfl
      refine ⟨hk, ?_⟩
      rw [hone]
      norm_num
  rw [blendMatrixSpec, hset, Finset.sum_singleton, hone, one_smul]

/-- Witness for C4 at a concrete input. -/
theorem C4_single_influence_witness :
    ((1 : ℕ) < ([0, 1] : List ℚ).length) ∧ ([0, 1] : List ℚ).getD 1 0 = 1 ∧
    reconstructVertex (fun _ => 1) (fun _ => 1) ["jointA", "jointB"] (fun _ => 1) [0, 1] =
      Matrix.vecMul (fun _ => (1 : ℚ))
        (mmatInverse (skin_matrix (fun _ => 1) (fun _ => 1)
          (["jointA", "jointB"].getD 1 ""))) :=
  ⟨by norm_num, by norm_num,
    C4_single_influence (fun _ => 1) (fun _ => 1) ["jointA", "jointB"] (fun _ => 1)
      [0, 1] 1 (by norm_num) (by norm_num)
      (by
        intro j hj hne
        have hj2 : j < 2 := by simpa using hj
        interval_cases j
        · rfl
        · exact absurd rfl hne)⟩

lemma skinMatrixLoop_set_neg (bindPose deformedPose : String → Mat4)
    (joints : List String) (l : List ℚ) : ∀ (k j0 : ℕ) (acc : Mat4),
    l.getD k 0 < 0 →
    skinMatrixLoop bindPose deformedPose joints j0 acc l =
      skinMatrixLoop bindPose deformedPose joints j0 acc (l.set k 0) := by
  induction l with
  | nil => intro k j0 acc _; rfl
  | cons w ws ih =>
      intro k j0 acc hneg
      cases k with
      | zero =>
          rw [List.getD_cons_zero] at hneg
          rw [List.set_cons_zero, skinMatrixLoop, skinMatrixLoop,
            if_neg (not_lt.mpr (le_of_lt hneg)), if_neg (lt_irrefl 0)]
      | succ k =>
          rw [List.getD_cons_succ] at hneg
          rw [List.set_cons_succ, skinMatrixLoop, skinMatrixLoop]
          exact ih k (j0 + 1) _ hneg

/-- Claim C9: a negative weight is treated exactly like a zero weight:
the guard admits only strictly positive weights, so the reconstructed
position is unchanged when the negative weight is replaced by zero. -/
theorem C9_negative_weight_like_zero (bindPose deformedPose : String → Mat4)
    (joints : List String) (curVertex : MPoint) (vertexWeights : List ℚ) (k : ℕ)
    (hneg : vertexWeights.getD k 0 < 0) :
    reconstructVertex bindPose deformedPose joints curVertex vertexWeights =
      reconstructVertex bindPose deformedPose joints curVertex (vertexWeights.set k 0) := by
  rw [reconstructVertex, reconstructVertex, weightedSkinMatrix, weightedSkinMatrix,
    skinMatrixLoop_set_neg bindPose deformedPose joints vertexWeights k 0 0 hneg]

/-- Witness for C9 at a concrete input. -/
theorem C9_negative_weight_like_zero_witness :
    (([-1, 1] : List ℚ).getD 0 0 < 0) ∧
    reconstructVertex (fun _ => 1) (fun _ => 1) ["jointA", "jointB"] (fun _ => 1) [-1, 1] =
      reconstructVertex (fun _ => 1) (fun _ => 1) ["jointA", "jointB"] (fun _ => 1)
        (([-1, 1] : List ℚ).set 0 0) :=
  ⟨by norm_num,
    C9_negative_weight_like_zero (fun _ => 1) (fun _ => 1) ["jointA", "jointB"]
      (fun _ => 1) [-1, 1] 0 (by norm_num)⟩

/-- A skin cluster, as the script consumes it: the ordered influence
joint list (lines 137 and 161 both query it, in the same order) and the
flat per-vertex, per-influence weight table, vertex-major, as Maya's
`MFnSkinCluster.getWeights` returns it (line 162, where it also returns
`num_influences`, the length of the influence list). -/
structure SkinBinding where
  joints : List String
  weights : List ℚ

/-- Entry (v, j) of a flat vertex-major weight table with the given
number of influences per vertex. -/
def weightAt (weights : List ℚ) (numInfluences v j : ℕ) : ℚ :=
  weights.getD (v * numInfluences + j) 0

/-- Lines 31-59 of the source (`get_skin_weights`): returns the cluster's
full flat weight table together with `influence_indices =
range(len(influence_objects))`. -/
def get_skin_weights (b : SkinBinding) : List ℚ × List ℕ :=
  (b.weights, List.range b.joints.length)

/-- Lines 61-88 of the source (`set_skin_weights`).  Modelled from the
spec: the body is a pass-through to the external service
`setWeights(binding, weights, influenceIndices)` of §6, which stores, for
every vertex `v` and every position `k` of the index list, the value
`weights[v * len(influenceIndices) + k]` on influence `influenceIndices[k]`
of vertex `v`; influences not named in the index list keep their old
weight. -/
def set_skin_weights (b : SkinBinding) (ws : List ℚ) (idxs : List ℕ) : SkinBinding :=
  { b with weights :=
      (List.range (ws.length / idxs.length)).flatMap fun v =>
        (List.range b.joints.length).map fun j =>
          match idxs.findIdx? (fun i => i == j) with
          | some k => ws.getD (v * idxs.length + k) 0
          | none => weightAt b.weights b.joints.length v j }

/-- Association-list deletion: removes every entry with the given name. -/
def assocDelete {α : Type} (name : String) (l : List (String × α)) : List (String × α) :=
  l.filter fun p => p.1 != name

/-- Association-list update: the name now maps to the given value. -/
def assocSet {α : Type} (name : String) (v : α) (l : List (String × α)) :
    List (String × α) :=
  (name, v) :: assocDelete name l

/-- The modelled Maya scene: world-space point buffers of the meshes by
node name, skin clusters by the name of the mesh they deform, and the
timeline (each joint's world matrix at each time, read by
`cmds.currentTime` plus `cmds.xform(..., matrix=True, worldSpace=True)`).
Modelled from the spec (§5, §6): these are the external scene services
the script calls through `maya.cmds` / `OpenMaya`. -/
structure Scene where
  meshes : List (String × List MPoint)
  bindings : List (String × SkinBinding)
  pose : ℚ → String → Mat4

/-- Lines 91-198 of the source: the whole operation, on the modelled
scene.  In source order: delete any existing object with the output name
(lines 116-118); duplicate the input mesh under the output name (121-124);
look for a skinCluster feeding the input mesh (126-132).  If one is
found: cache both poses (142-153), read the source points (156) and the
flat weight table (159-163), reconstruct every vertex (165-181), write
the points onto the duplicate (183), bind the duplicate to the same
joints (189, auto-computed initial weights modelled as zeros since they
are overwritten) and copy the original weights by influence index
(188-190).  If none is found the function only logs (192-193). -/
def reconstruct_bind_mesh (sc : Scene) (inputMesh outputMesh : String)
    (bindPoseTime deformedTime : ℚ) : Scene :=
  let sc1 : Scene :=
    if (sc.meshes.lookup outputMesh).isSome then
      { sc with meshes := assocDelete outputMesh sc.meshes,
                bindings := assocDelete outputMesh sc.bindings }
    else sc
  let inputPoints := (sc.meshes.lookup inputMesh).getD []
  let sc2 : Scene := { sc1 with meshes := (outputMesh, inputPoints) :: sc1.meshes }
  match sc.bindings.lookup inputMesh with
  | none => sc2
  | some b =>
      let cachedBindPose := sc.pose bindPoseTime
      let cachedDeformedPose := sc.pose deformedTime
      let numInfluences := b.joints.length
      let bindVerts := reconstructLoop cachedBindPose cachedDeformedPose b.joints
          inputPoints b.weights numInfluences
      let sc3 : Scene := { sc2 with meshes := assocSet outputMesh bindVerts sc2.meshes }
      let transferred := set_skin_weights
          { joints := b.joints, weights := List.replicate b.weights.length 0 }
          (get_skin_weights b).1 (get_skin_weights b).2
      { sc3 with bindings := assocSet outputMesh transferred sc3.bindings }

lemma lookup_assocDelete_self {α : Type} (n : String) (l : List (String × α)) :
    (assocDelete n l).lookup n = none := by
  induction l with
  | nil => rfl
  | cons p t ih =>
      obtain ⟨k, v⟩ := p
      rw [assocDelete, List.filter_cons]
      by_cases h : k = n
      · rw [if_neg (by simp [h])]
        exact ih
      · rw [if_pos (by simp [h]), List.lookup_cons]
        have hbeq : (n == k) = false := beq_eq_false_iff_ne.mpr (Ne.symm h)
        rw [hbeq]
        exact ih

lemma lookup_assocDelete_ne {α : Type} (n m : String) (l : List (String × α))
    (hmn : m ≠ n) : (assocDelete n l).lookup m = l.lookup m := by
  induction l with
  | nil => rfl
  | cons p t ih =>
      obtain ⟨k, v⟩ := p
      rw [assocDelete, List.filter_cons]
      by_cases h : k = n
      · rw [if_neg (by simp [h]), List.lookup_cons]
        have hbeq : (m == k) = false := beq_eq_false_iff_ne.mpr (h ▸ hmn)
        rw [hbeq]
        exact ih
      · rw [if_pos (by simp [h]), List.lookup_cons, List.lookup_cons]
        by_cases hmk : m = k
        · rw [beq_iff_eq.mpr hmk]
        · rw [beq_eq_false_iff_ne.mpr hmk]
          exact ih

lemma lookup_assocSet_self {α : Type} (n : String) (v : α) (l : List (String × α)) :
    (assocSet n v l).lookup n = some v := by
  rw [assocSet, List.lookup_cons, beq_iff_eq.mpr rfl]

lemma lookup_assocSet_ne {α : Type} (n m : String) (v : α) (l : List (String × α))
    (hmn : m ≠ n) : (assocSet n v l).lookup m = l.lookup m := by
  rw [assocSet, List.lookup_cons, beq_eq_false_iff_ne.mpr hmn]
  exact lookup_assocDelete_ne n m l hmn

lemma flatTable_length (c : ℕ) (f : ℕ → ℕ → ℚ) (a : ℕ) :
    ((List.range a).flatMap fun v => (List.range c).map (f v)).length = a * c := by
  induction a with
  | zero => simp
  | succ a ih =>
      rw [List.range_succ, List.flatMap_append, List.length_append, ih]
      have h1 : ([a].flatMap fun v => (List.range c).map (f v)).length = c := by simp
      rw [h1, Nat.succ_mul]

lemma flatTable_getD (c : ℕ) (f : ℕ → ℕ → ℚ) : ∀ (a v j : ℕ), v < a → j < c →
    ((List.range a).flatMap fun v => (List.range c).map (f v)).getD (v * c + j) 0 =
      f v j := by
  intro a
  induction a with
  | zero => intro v j hv _; exact absurd hv (Nat.not_lt_zero v)
  | succ a ih =>
      intro v j hv hj
      rw [List.range_succ, List.flatMap_append]
      have hlen1 : ((List.range a).flatMap fun v => (List.range c).map (f v)).length =
          a * c := flatTable_length c f a
      have hlast : ([a].flatMap fun v => (List.range c).map (f v)) =
          (List.range c).map (f a) := by simp
      rcases Nat.lt_succ_iff_lt_or_eq.mp hv with h | h
      · have hpos : v * c + j < ((List.range a).flatMap fun v =>
            (List.range c).map (f v)).length := by
          rw [hlen1]
          have h2 : v * c + j < (v + 1) * c := by
            rw [Nat.succ_mul]; omega
          have h3 : (v + 1) * c ≤ a * c := Nat.mul_le_mul_right c h
          omega
        have htot : v * c + j < (((List.range a).flatMap fun v =>
            (List.range c).map (f v)) ++ ([a].flatMap fun v =>
            (List.range c).map (f v))).length := by
          rw [List.length_append]; omega
        rw [List.getD_eq_getElem _ _ htot, List.getElem_append_left hpos,
          ← List.getD_eq_getElem _ (0 : ℚ) hpos]
        exact ih v j h hj
      · subst h
        have htot : v * c + j < (((List.range v).flatMap fun w =>
            (List.range c).map (f w)) ++ ([v].flatMap fun w =>
            (List.range c).map (f w))).length := by
          rw [List.length_append, flatTable_length c f v, hlast, List.length_map,
            List.length_range]
          omega
        rw [List.getD_eq_getElem _ _ htot]
        have hge : ((List.range v).flatMap fun w =>
            (List.range c).map (f w)).length ≤ v * c + j := by
          rw [flatTable_length c f v]; omega
        rw [List.getElem_append_right hge]
        have hidx : v * c + j - ((List.range v).flatMap fun w =>
            (List.range c).map (f w)).length = j := by
          rw [flatTable_length c f v]; omega
        simp only [hlast]
        have hjlt : v * c + j - ((List.range v).flatMap fun w =>
            (List.range c).map (f w)).length < ((List.range c).map (f v)).length := by
          rw [hidx, List.length_map, List.length_range]; exact hj
        rw [List.getElem_map, List.getElem_range]
        rw [hidx]

lemma findIdx?_range'_self : ∀ (n s j start : ℕ), j < n →
    (List.range' s n).findIdx? (fun i => i == s + j) start = some (start + j) := by
  intro n
  induction n with
  | zero => intro s j start h; exact absurd h (Nat.not_lt_zero j)
  | succ n ih =>
      intro s j start h
      show (s :: List.range' (s + 1) n).findIdx? (fun i => i == s + j) start =
        some (start + j)
      rw [List.findIdx?_cons]
      cases j with
      | zero => simp
      | succ j =>
          have hcond : ¬ ((fun i => i == s + (j + 1)) s = true) := by
            simp only [beq_iff_eq]
            omega
          rw [if_neg hcond]
          have hpred : (fun i => i == s + (j + 1)) = (fun i => i == (s + 1) + j) := by
            funext i
            have : s + (j + 1) = (s + 1) + j := by omega
            rw [this]
          rw [hpred, ih (s + 1) j (start + 1) (by omega)]
          have : start + 1 + j = start + (j + 1) := by omega
          rw [this]

lemma findIdx?_range_self (n j : ℕ) (h : j < n) :
    (List.range n).findIdx? (fun i => i == j) = some j := by
  have h0 := findIdx?_range'_self n 0 j 0 h
  rw [List.range_eq_range']
  simpa using h0

lemma set_skin_weights_by_index (b0 : SkinBinding) (ws : List ℚ) (nV : ℕ)
    (hlen : ws.length = nV * b0.joints.length) (hj : 0 < b0.joints.length) :
    ∀ v < nV, ∀ j < b0.joints.length,
      weightAt (set_skin_weights b0 ws (List.range b0.joints.length)).weights
          b0.joints.length v j =
        weightAt ws b0.joints.length v j := by
  intro v hv j hjlt
  rw [set_skin_weights]
  simp only [List.length_range]
  have hdiv : ws.length / b0.joints.length = nV := by
    rw [hlen]
    exact Nat.mul_div_cancel nV hj
  rw [hdiv, weightAt,
    flatTable_getD b0.joints.length _ nV v j hv hjlt,
    findIdx?_range_self b0.joints.length j hjlt]
  rfl

lemma reconstruct_meshes_lookup_ne (sc : Scene) (inputMesh outputMesh : String)
    (t1 t2 : ℚ) (m : String) (hm : m ≠ outputMesh) :
    (reconstruct_bind_mesh sc inputMesh outputMesh t1 t2).meshes.lookup m =
      sc.meshes.lookup m := by
  cases hb : sc.bindings.lookup inputMesh with
  | none =>
      cases hopt : sc.meshes.lookup outputMesh with
      | none =>
          simp [reconstruct_bind_mesh, hb, hopt, List.lookup_cons,
            beq_eq_false_iff_ne.mpr hm]
      | some old =>
          simp [reconstruct_bind_mesh, hb, hopt, List.lookup_cons,
            beq_eq_false_iff_ne.mpr hm, lookup_assocDelete_ne outputMesh m sc.meshes hm]
  | some b =>
      cases hopt : sc.meshes.lookup outputMesh with
      | none =>
          simp [reconstruct_bind_mesh, hb, hopt, List.lookup_cons,
            beq_eq_false_iff_ne.mpr hm, lookup_assocSet_ne outputMesh m _ _ hm]
      | some old =>
          simp [reconstruct_bind_mesh, hb, hopt, List.lookup_cons,
            beq_eq_false_iff_ne.mpr hm, lookup_assocSet_ne outputMesh m _ _ hm,
            lookup_assocDelete_ne outputMesh m sc.meshes hm]

lemma reconstruct_noBinding_output (sc : Scene) (inputMesh outputMesh : String)
    (t1 t2 : ℚ) (pts : List MPoint)
    (hnb : sc.bindings.lookup inputMesh = none)
    (hpts : sc.meshes.lookup inputMesh = some pts) :
    (reconstruct_bind_mesh sc inputMesh outputMesh t1 t2).meshes.lookup outputMesh =
      some pts := by
  cases hopt : sc.meshes.lookup outputMesh with
  | none => simp [reconstruct_bind_mesh, hnb, hpts, hopt, List.lookup_cons]
  | some old => simp [reconstruct_bind_mesh, hnb, hpts, hopt, List.lookup_cons]

lemma reconstruct_binding_output (sc : Scene) (inputMesh outputMesh : String)
    (t1 t2 : ℚ) (b : SkinBinding) (pts : List MPoint)
    (hb : sc.bindings.lookup inputMesh = some b)
    (hpts : sc.meshes.lookup inputMesh = some pts) :
    (reconstruct_bind_mesh sc inputMesh outputMesh t1 t2).meshes.lookup outputMesh =
      some (reconstructLoop (sc.pose t1) (sc.pose t2) b.joints pts b.weights
        b.joints.length) := by
  cases hopt : sc.meshes.lookup outputMesh with
  | none => simp [reconstruct_bind_mesh, hb, hpts, hopt, lookup_assocSet_self]
  | some old => simp [reconstruct_bind_mesh, hb, hpts, hopt, lookup_assocSet_self]

lemma reconstruct_binding_bindings (sc : Scene) (inputMesh outputMesh : String)
    (t1 t2 : ℚ) (b : SkinBinding)
    (hb : sc.bindings.lookup inputMesh = some b) :
    (reconstruct_bind_mesh sc inputMesh outputMesh t1 t2).bindings.lookup outputMesh =
      some (set_skin_weights
        { joints := b.joints, weights := List.replicate b.weights.length 0 }
        b.weights (List.range b.joints.length)) := by
  cases hopt : sc.meshes.lookup outputMesh with
  | none => simp [reconstruct_bind_mesh, hb, hopt, get_skin_weights, lookup_assocSet_self]
  | some old => simp [reconstruct_bind_mesh, hb, hopt, get_skin_weights, lookup_assocSet_self]

/-- Claim C10: on every call the operation first deletes any pre-existing
object with the output name and duplicates the input mesh under that
name, before looking for a skin binding; so even when the input has no
skin binding the prior output object is gone and the output name holds a
duplicate of the input geometry. -/
theorem C10_no_binding_still_duplicates (sc : Scene) (inputMesh outputMesh : String)
    (t1 t2 : ℚ) (pts : List MPoint) (hio : inputMesh ≠ outputMesh)
    (hnb : sc.bindings.lookup inputMesh = none)
    (hpts : sc.meshes.lookup inputMesh = some pts) :
    (reconstruct_bind_mesh sc inputMesh outputMesh t1 t2).meshes.lookup outputMesh =
      some pts :=
  reconstruct_noBinding_output sc inputMesh outputMesh t1 t2 pts hnb hpts

/-- Witness for C10 at a concrete scene that does have a pre-existing
output object. -/
theorem C10_no_binding_still_duplicates_witness :
    (("in" : String) ≠ "out") ∧
    (Scene.mk [("in", [fun _ => 3]), ("out", [fun _ => 9])] []
      (fun _ _ => 1)).bindings.lookup "in" = none ∧
    (reconstruct_bind_mesh
      (Scene.mk [("in", [fun _ => 3]), ("out", [fun _ => 9])] [] (fun _ _ => 1))
      "in" "out" 0 30).meshes.lookup "out" = some [fun _ => 3] :=
  ⟨by decide, rfl,
    C10_no_binding_still_duplicates
      (Scene.mk [("in", [fun _ => 3]), ("out", [fun _ => 9])] [] (fun _ _ => 1))
      "in" "out" 0 30 [fun _ => 3] (by decide) rfl rfl⟩

/-- Counterexample to C6 as stated: a scene whose input mesh has no skin
binding and which already holds an output object.  The operation, though
it performs no reconstruction, does not leave the scene's meshes as they
were: the pre-existing output mesh is replaced by a duplicate of the
input geometry. -/
theorem C6_counterexample :
    (Scene.mk [("out", [fun _ => 9]), ("in", [fun _ => 3])] []
      (fun _ _ => 1)).bindings.lookup "in" = none ∧
    (reconstruct_bind_mesh
      (Scene.mk [("out", [fun _ => 9]), ("in", [fun _ => 3])] [] (fun _ _ => 1))
      "in" "out" 0 30).meshes.lookup "out" ≠
      (Scene.mk [("out", [fun _ => 9]), ("in", [fun _ => 3])] []
        (fun _ _ => 1)).meshes.lookup "out" := by
  refine ⟨rfl, ?_⟩
  have h := reconstruct_noBinding_output
    (Scene.mk [("out", [fun _ => 9]), ("in", [fun _ => 3])] [] (fun _ _ => 1))
    "in" "out" 0 30 [fun _ => 3] rfl (by decide)
  rw [h]
  decide

/-- Claim C6 (amended): when the input mesh has no skin binding the
operation performs no reconstruction and no weight transfer and raises
no error, but it does not leave the scene untouched: the output name now
holds a plain duplicate of the input geometry (any pre-existing output
object is destroyed), while the input mesh and every other mesh are
unchanged. -/
theorem C6_no_binding_noop_amended (sc : Scene) (inputMesh outputMesh : String)
    (t1 t2 : ℚ) (pts : List MPoint) (hio : inputMesh ≠ outputMesh)
    (hnb : sc.bindings.lookup inputMesh = none)
    (hpts : sc.meshes.lookup inputMesh = some pts) :
    (reconstruct_bind_mesh sc inputMesh outputMesh t1 t2).meshes.lookup outputMesh =
      some pts ∧
    (reconstruct_bind_mesh sc inputMesh outputMesh t1 t2).meshes.lookup inputMesh =
      sc.meshes.lookup inputMesh ∧
    ∀ m, m ≠ outputMesh →
      (reconstruct_bind_mesh sc inputMesh outputMesh t1 t2).meshes.lookup m =
        sc.meshes.lookup m :=
  ⟨reconstruct_noBinding_output sc inputMesh outputMesh t1 t2 pts hnb hpts,
    reconstruct_meshes_lookup_ne sc inputMesh outputMesh t1 t2 inputMesh hio,
    fun m hm => reconstruct_meshes_lookup_ne sc inputMesh outputMesh t1 t2 m hm⟩

/-- Witness for the amended C6 at a concrete scene. -/
theorem C6_no_binding_noop_amended_witness :
    (("in" : String) ≠ "out") ∧
    ((reconstruct_bind_mesh (Scene.mk [("in", [fun _ => 4])] [] (fun _ _ => 1))
        "in" "out" 0 30).meshes.lookup "out" = some [fun _ => 4] ∧
      (reconstruct_bind_mesh (Scene.mk [("in", [fun _ => 4])] [] (fun _ _ => 1))
        "in" "out" 0 30).meshes.lookup "in" =
        (Scene.mk [("in", [fun _ => 4])] [] (fun _ _ => 1)).meshes.lookup "in" ∧
      ∀ m, m ≠ "out" →
        (reconstruct_bind_mesh (Scene.mk [("in", [fun _ => 4])] [] (fun _ _ => 1))
          "in" "out" 0 30).meshes.lookup m =
          (Scene.mk [("in", [fun _ => 4])] [] (fun _ _ => 1)).meshes.lookup m) :=
  ⟨by decide,
    C6_no_binding_noop_amended (Scene.mk [("in", [fun _ => 4])] [] (fun _ _ => 1))
      "in" "out" 0 30 [fun _ => 4] (by decide) rfl rfl⟩

/-- Claim C8: the input mesh's point buffer is never written: after the
operation, looking up the input mesh (or any mesh other than the output)
gives exactly the points it had before; the reconstructed positions go
only to the output name. -/
theorem C8_input_mesh_read_only (sc : Scene) (inputMesh outputMesh : String)
    (t1 t2 : ℚ) (hio : inputMesh ≠ outputMesh) :
    (reconstruct_bind_mesh sc inputMesh outputMesh t1 t2).meshes.lookup inputMesh =
      sc.meshes.lookup inputMesh ∧
    ∀ m, m ≠ outputMesh →
      (reconstruct_bind_mesh sc inputMesh outputMesh t1 t2).meshes.lookup m =
        sc.meshes.lookup m :=
  ⟨reconstruct_meshes_lookup_ne sc inputMesh outputMesh t1 t2 inputMesh hio,
    fun m hm => reconstruct_meshes_lookup_ne sc inputMesh outputMesh t1 t2 m hm⟩

/-- Witness for C8 at a concrete scene with a skin binding. -/
theorem C8_input_mesh_read_only_witness :
    (("in" : String) ≠ "out") ∧
    ((reconstruct_bind_mesh
        (Scene.mk [("in", [fun _ => 2])] [("in", SkinBinding.mk ["A"] [1])]
          (fun _ _ => 1)) "in" "out" 0 30).meshes.lookup "in" =
      (Scene.mk [("in", [fun _ => 2])] [("in", SkinBinding.mk ["A"] [1])]
        (fun _ _ => 1)).meshes.lookup "in" ∧
    ∀ m, m ≠ "out" →
      (reconstruct_bind_mesh
        (Scene.mk [("in", [fun _ => 2])] [("in", SkinBinding.mk ["A"] [1])]
          (fun _ _ => 1)) "in" "out" 0 30).meshes.lookup m =
        (Scene.mk [("in", [fun _ => 2])] [("in", SkinBinding.mk ["A"] [1])]
          (fun _ _ => 1)).meshes.lookup m) :=
  ⟨by decide,
    C8_input_mesh_read_only
      (Scene.mk [("in", [fun _ => 2])] [("in", SkinBinding.mk ["A"] [1])]
        (fun _ _ => 1)) "in" "out" 0 30 (by decide)⟩

lemma ceil_div_exact (nV nJ : ℕ) (hj : 0 < nJ) : (nV * nJ + nJ - 1) / nJ = nV := by
  obtain ⟨t, ht⟩ : ∃ t, t = nV * nJ := ⟨nV * nJ, rfl⟩
  rw [← ht]
  have h1 : t + nJ - 1 = (nJ - 1) + t := by omega
  rw [h1, ht, Nat.add_mul_div_right _ _ hj, Nat.div_eq_of_lt (by omega), Nat.zero_add]

/-- Claim C5: for a valid input (flat weight list of length vertex count
times influence count, every vertex row blending to an invertible
matrix), the written output point list has exactly one entry per input
vertex, entry i being computed from source vertex i and weight row i,
and the whole list replaces the output mesh's geometry. -/
theorem C5_one_output_per_vertex (sc : Scene) (inputMesh outputMesh : String)
    (t1 t2 : ℚ) (b : SkinBinding) (srcPts : List MPoint) (nV : ℕ)
    (hio : inputMesh ≠ outputMesh)
    (hb : sc.bindings.lookup inputMesh = some b)
    (hpts : sc.meshes.lookup inputMesh = some srcPts)
    (hsrc : srcPts.length = nV)
    (hlen : b.weights.length = nV * b.joints.length)
    (hj : 0 < b.joints.length)
    (hdet : ∀ v < nV, (weightedSkinMatrix (sc.pose t1) (sc.pose t2) b.joints
        ((b.weights.drop (v * b.joints.length)).take b.joints.length)).det ≠ 0) :
    ∃ pts,
      (reconstruct_bind_mesh sc inputMesh outputMesh t1 t2).meshes.lookup outputMesh =
        some pts ∧
      pts.length = nV ∧
      ∀ i < nV, pts.getD i (fun _ => 0) =
        reconstructVertex (sc.pose t1) (sc.pose t2) b.joints
          (srcPts.getD i (fun _ => 0))
          ((b.weights.drop (i * b.joints.length)).take b.joints.length) := by
  have hcount : (b.weights.length + b.joints.length - 1) / b.joints.length = nV := by
    rw [hlen]
    exact ceil_div_exact nV b.joints.length hj
  refine ⟨_, reconstruct_binding_output sc inputMesh outputMesh t1 t2 b srcPts hb hpts,
    ?_, ?_⟩
  · rw [reconstructLoop, List.length_map, List.length_range, hcount]
  · intro i hi
    rw [reconstructLoop]
    have hilt : i < ((List.range ((b.weights.length + b.joints.length - 1) /
        b.joints.length)).map fun v =>
          reconstructVertex (sc.pose t1) (sc.pose t2) b.joints
            (srcPts.getD v (fun _ => 0))
            ((b.weights.drop (v * b.joints.length)).take b.joints.length)).length := by
      rw [List.length_map, List.length_range, hcount]
      exact hi
    rw [List.getD_eq_getElem _ _ hilt, List.getElem_map, List.getElem_range]

/-- Witness for C5 at a concrete scene with one vertex and one influence. -/
theorem C5_one_output_per_vertex_witness :
    ((SkinBinding.mk ["A"] [1]).weights.length =
      1 * (SkinBinding.mk ["A"] [1]).joints.length) ∧
    (0 < (SkinBinding.mk ["A"] [1]).joints.length) ∧
    ∃ pts,
      (reconstruct_bind_mesh
        (Scene.mk [("in", [fun _ => 2])] [("in", SkinBinding.mk ["A"] [1])]
          (fun _ _ => 1)) "in" "out" 0 30).meshes.lookup "out" = some pts ∧
      pts.length = 1 ∧
      ∀ i < 1, pts.getD i (fun _ => 0) =
        reconstructVertex
          ((Scene.mk [("in", [fun _ => 2])] [("in", SkinBinding.mk ["A"] [1])]
            (fun _ _ => 1)).pose 0)
          ((Scene.mk [("in", [fun _ => 2])] [("in", SkinBinding.mk ["A"] [1])]
            (fun _ _ => 1)).pose 30)
          (SkinBinding.mk ["A"] [1]).joints
          (([fun _ => 2] : List MPoint).getD i (fun _ => 0))
          (((SkinBinding.mk ["A"] [1]).weights.drop
            (i * (SkinBinding.mk ["A"] [1]).joints.length)).take
            (SkinBinding.mk ["A"] [1]).joints.length) :=
  ⟨by decide, by decide,
    C5_one_output_per_vertex
      (Scene.mk [("in", [fun _ => 2])] [("in", SkinBinding.mk ["A"] [1])]
        (fun _ _ => 1)) "in" "out" 0 30 (SkinBinding.mk ["A"] [1]) [fun _ => 2] 1
      (by decide) rfl rfl rfl (by decide) (by decide)
      (by
        intro v hv
        interval_cases v
        have hwsm : weightedSkinMatrix (fun _ => 1) (fun _ => 1) ["A"]
            ([1] : List ℚ) = 1 := by
          rw [weightedSkinMatrix, skinMatrixLoop, if_pos (by norm_num : (0 : ℚ) < 1),
            skinMatrixLoop, skin_matrix]
          simp [mmatInverse_one]
        show (weightedSkinMatrix (fun _ => 1) (fun _ => 1) ["A"] ([1] : List ℚ)).det ≠ 0
        rw [hwsm, Matrix.det_one]
        exact one_ne_zero)⟩

lemma skinMatrixLoop_nonpos (bindPose deformedPose : String → Mat4)
    (joints : List String) : ∀ (l : List ℚ), (∀ w ∈ l, ¬ 0 < w) →
    ∀ (j0 : ℕ) (acc : Mat4),
      skinMatrixLoop bindPose deformedPose joints j0 acc l = acc := by
  intro l
  induction l with
  | nil => intro _ j0 acc; rfl
  | cons w ws ih =>
      intro h j0 acc
      rw [skinMatrixLoop, if_neg (h w (List.mem_cons_self w ws))]
      exact ih (fun x hx => h x (List.mem_cons_of_mem w hx)) (j0 + 1) acc

/-- Claim C3 (amended): the code defines no `DegenerateInfluenceError`
and raises nothing for a degenerate blend: on a binding whose weights
are all zero, every vertex's blend matrix stays the zero matrix, its
(model) inverse is taken, and the operation still emits the output mesh,
its points being the degenerate zero point. -/
theorem C3_all_zero_weights_no_failure (sc : Scene) (inputMesh outputMesh : String)
    (t1 t2 : ℚ) (b : SkinBinding) (srcPts : List MPoint)
    (hio : inputMesh ≠ outputMesh)
    (hb : sc.bindings.lookup inputMesh = some b)
    (hpts : sc.meshes.lookup inputMesh = some srcPts)
    (hzero : ∀ w ∈ b.weights, w = 0) :
    ∃ pts,
      (reconstruct_bind_mesh sc inputMesh outputMesh t1 t2).meshes.lookup outputMesh =
        some pts ∧
      pts.length = (b.weights.length + b.joints.length - 1) / b.joints.length ∧
      ∀ q ∈ pts, q = (fun _ => 0) := by
  refine ⟨_, reconstruct_binding_output sc inputMesh outputMesh t1 t2 b srcPts hb hpts,
    ?_, ?_⟩
  · rw [reconstructLoop, List.length_map, List.length_range]
  · intro q hq
    rw [reconstructLoop] at hq
    obtain ⟨v, hv, rfl⟩ := List.mem_map.mp hq
    have hnp : ∀ w ∈ (b.weights.drop (v * b.joints.length)).take b.joints.length,
        ¬ 0 < w := by
      intro w hw
      have hmem : w ∈ b.weights := List.mem_of_mem_drop (List.mem_of_mem_take hw)
      rw [hzero w hmem]
      exact lt_irrefl 0
    rw [reconstructVertex, weightedSkinMatrix,
      skinMatrixLoop_nonpos (sc.pose t1) (sc.pose t2) b.joints _ hnp 0 0,
      mmatInverse_zero, Matrix.vecMul_zero]
    rfl

/-- Witness for the amended C3 at a concrete scene. -/
theorem C3_all_zero_weights_no_failure_witness :
    (∀ w ∈ (SkinBinding.mk ["A"] [0]).weights, w = 0) ∧
    ∃ pts,
      (reconstruct_bind_mesh
        (Scene.mk [("in", [fun _ => 7])] [("in", SkinBinding.mk ["A"] [0])]
          (fun _ _ => 1)) "in" "out" 0 30).meshes.lookup "out" = some pts ∧
      pts.length = ((SkinBinding.mk ["A"] [0]).weights.length +
        (SkinBinding.mk ["A"] [0]).joints.length - 1) /
        (SkinBinding.mk ["A"] [0]).joints.length ∧
      ∀ q ∈ pts, q = (fun _ => 0) :=
  ⟨by decide,
    C3_all_zero_weights_no_failure
      (Scene.mk [("in", [fun _ => 7])] [("in", SkinBinding.mk ["A"] [0])]
        (fun _ _ => 1)) "in" "out" 0 30 (SkinBinding.mk ["A"] [0]) [fun _ => 7]
      (by decide) rfl rfl (by decide)⟩

/-- Counterexample to C3 as stated: a scene whose sole vertex has the
all-zero weight row.  No `DegenerateInfluenceError` exists in the code
and the operation does not report failure: it emits the output mesh
(with a garbage zero point), and the pre-existing output mesh is neither
left untouched nor just deleted but replaced by that new geometry. -/
theorem C3_counterexample :
    (∀ w ∈ (SkinBinding.mk ["A"] [0]).weights, w = 0) ∧
    (reconstruct_bind_mesh
      (Scene.mk [("in", [fun _ => 7]), ("out", [fun _ => 9])]
        [("in", SkinBinding.mk ["A"] [0])] (fun _ _ => 1))
      "in" "out" 0 30).meshes.lookup "out" = some [fun _ => 0] ∧
    (reconstruct_bind_mesh
      (Scene.mk [("in", [fun _ => 7]), ("out", [fun _ => 9])]
        [("in", SkinBinding.mk ["A"] [0])] (fun _ _ => 1))
      "in" "out" 0 30).meshes.lookup "out" ≠ some [fun _ => 9] ∧
    (reconstruct_bind_mesh
      (Scene.mk [("in", [fun _ => 7]), ("out", [fun _ => 9])]
        [("in", SkinBinding.mk ["A"] [0])] (fun _ _ => 1))
      "in" "out" 0 30).meshes.lookup "out" ≠ none := by
  have h := reconstruct_binding_output
    (Scene.mk [("in", [fun _ => 7]), ("out", [fun _ => 9])]
      [("in", SkinBinding.mk ["A"] [0])] (fun _ _ => 1))
    "in" "out" 0 30 (SkinBinding.mk ["A"] [0]) [fun _ => 7] rfl (by decide)
  have h2 : (reconstruct_bind_mesh
      (Scene.mk [("in", [fun _ => 7]), ("out", [fun _ => 9])]
        [("in", SkinBinding.mk ["A"] [0])] (fun _ _ => 1))
      "in" "out" 0 30).meshes.lookup "out" = some [fun _ => 0] := by
    rw [h]
    congr 1
    show reconstructLoop (fun _ => 1) (fun _ => 1) ["A"] [fun _ => 7] [0] 1 =
      [fun _ => 0]
    rw [reconstructLoop]
    have harg : ((([(0 : ℚ)]).length + 1 - 1) / 1) = 1 := by simp
    rw [harg]
    have hr1 : List.range 1 = [0] := by decide
    rw [hr1, List.map_cons, List.map_nil]
    have hone : reconstructVertex (fun _ => 1) (fun _ => 1) ["A"]
        (([fun _ => 7] : List MPoint).getD 0 (fun _ => 0))
        ((([0] : List ℚ).drop (0 * 1)).take 1) = (fun _ => 0) := by
      show reconstructVertex (fun _ => 1) (fun _ => 1) ["A"] (fun _ => 7)
        ([0] : List ℚ) = (fun _ => 0)
      rw [reconstructVertex, weightedSkinMatrix, skinMatrixLoop,
        if_neg (lt_irrefl (0 : ℚ)), skinMatrixLoop, mmatInverse_zero,
        Matrix.vecMul_zero]
      rfl
    rw [hone]
  refine ⟨by decide, h2, ?_, ?_⟩
  · rw [h2]
    decide
  · rw [h2]
    decide

/-- Claim C7: the weight transfer copies the original binding's weights
onto the newly created binding by influence index: for every vertex and
every influence index the weight stored on the target equals the weight
read from the source, with no re-derivation or renormalization. -/
theorem C7_weight_transfer_fidelity (sc : Scene) (inputMesh outputMesh : String)
    (t1 t2 : ℚ) (b : SkinBinding) (nV : ℕ)
    (hio : inputMesh ≠ outputMesh)
    (hb : sc.bindings.lookup inputMesh = some b)
    (hlen : b.weights.length = nV * b.joints.length)
    (hj : 0 < b.joints.length) :
    ∃ tb,
      (reconstruct_bind_mesh sc inputMesh outputMesh t1 t2).bindings.lookup outputMesh =
        some tb ∧
      tb.joints = b.joints ∧
      ∀ v < nV, ∀ j < b.joints.length,
        weightAt tb.weights b.joints.length v j =
          weightAt b.weights b.joints.length v j := by
  refine ⟨_, reconstruct_binding_bindings sc inputMesh outputMesh t1 t2 b hb, rfl, ?_⟩
  intro v hv j hj2
  exact set_skin_weights_by_index
    (SkinBinding.mk b.joints (List.replicate b.weights.length 0)) b.weights nV hlen hj
    v hv j hj2

/-- Witness for C7 at a concrete scene. -/
theorem C7_weight_transfer_fidelity_witness :
    ((SkinBinding.mk ["A"] [5]).weights.length =
      1 * (SkinBinding.mk ["A"] [5]).joints.length) ∧
    (0 < (SkinBinding.mk ["A"] [5]).joints.length) ∧
    ∃ tb,
      (reconstruct_bind_mesh
        (Scene.mk [("in", [fun _ => 2])] [("in", SkinBinding.mk ["A"] [5])]
          (fun _ _ => 1)) "in" "out" 0 30).bindings.lookup "out" = some tb ∧
      tb.joints = (SkinBinding.mk ["A"] [5]).joints ∧
      ∀ v < 1, ∀ j < (SkinBinding.mk ["A"] [5]).joints.length,
        weightAt tb.weights (SkinBinding.mk ["A"] [5]).joints.length v j =
          weightAt (SkinBinding.mk ["A"] [5]).weights
            (SkinBinding.mk ["A"] [5]).joints.length v j :=
  ⟨by decide, by decide,
    C7_weight_transfer_fidelity
      (Scene.mk [("in", [fun _ => 2])] [("in", SkinBinding.mk ["A"] [5])]
        (fun _ _ => 1)) "in" "out" 0 30 (SkinBinding.mk ["A"] [5]) 1
      (by decide) rfl (by decide) (by decide)⟩
